import Mathlib

/-!
# Verification of the Bubble Tea program runtime core (`src/tea.go`)

A shallow embedding of the event loop, command dispatch, send paths and
terminal release/restore sequencing of the `tea` package, together with
theorems settling the specification's claims about them.

The application contract is kept abstract: a model type `M`, an
application-message type `A`, a transition function `u : M → Msg A → M × Cmd A`
(Go `Model.Update`) and a render function `v : M → String` (Go `Model.View`).
Renderer calls and channel hand-offs are recorded as an explicit effect trace.
-/

namespace Tea

/-- The message type flowing on the bus (Go `Msg`), as a closed variant over
the internal control messages recognized by `eventLoop` (src/tea.go:273-319)
plus `printLine` (src/tea.go:585), `repaint` (src/tea.go:574) and a
constructor `app` for all application (non-control) messages.  A Go `Cmd` is a
nullable function returning a `Msg`; it is embedded as `Option (Msg A)`
(`none` = the nil command, `some m` = a command whose invocation yields `m`). -/
inductive Msg (A : Type) where
  | quit
  | clearScreen
  | enterAltScreen
  | exitAltScreen
  | enableMouseCellMotion
  | enableMouseAllMotion
  | disableMouse
  | showCursor
  | hideCursor
  | exec
  | batch (cmds : List (Option (Msg A)))
  | sequence (cmds : List (Option (Msg A)))
  | printLine (body : String)
  | repaint
  | app (a : A)

/-- Go `Cmd` (src/tea.go:59): a nullable deferred computation yielding one
message. `none` embeds the nil command. -/
def Cmd (A : Type) : Type := Option (Msg A)

/-- Observable actions of the runtime: renderer contract calls, hand-offs of
commands to the dispatcher channel (`cmds <- cmd`), the standard renderer
message hook (src/tea.go:322-324), spawning of a sequence goroutine
(src/tea.go:313-318), the blocking exec call (src/tea.go:304), and
`go p.Send(repaintMsg\x7b\x7d)` during terminal restore (src/tea.go:574). -/
inductive Effect (A : Type) where
  | clearScreen
  | enterAltScreen
  | exitAltScreen
  | enableMouseCellMotion
  | enableMouseAllMotion
  | disableMouseCellMotion
  | disableMouseAllMotion
  | showCursor
  | hideCursor
  | execProcess
  | spawnSequence (cmds : List (Cmd A))
  | handleMessages (m : Msg A)
  | forwardCmd (c : Cmd A)
  | write (s : String)
  | sendRepaint

/-- One invocation of the application transition function
(`model, cmd = model.Update(msg)`, src/tea.go:327). -/
structure UpdateCall (M A : Type) where
  modelIn : M
  msg : Msg A
  modelOut : M
  cmd : Cmd A

/-- Renderer side effects of the control-message switch in `eventLoop`
(src/tea.go:273-319), per message kind.  `batch` forwards each sub-command to
the dispatcher channel; `sequence` spawns its runner goroutine; messages with
no case in the switch produce nothing. -/
def controlEffects {A : Type} : Msg A → List (Effect A)
  | Msg.clearScreen => [Effect.clearScreen]
  | Msg.enterAltScreen => [Effect.enterAltScreen]
  | Msg.exitAltScreen => [Effect.exitAltScreen]
  | Msg.enableMouseCellMotion => [Effect.enableMouseCellMotion]
  | Msg.enableMouseAllMotion => [Effect.enableMouseAllMotion]
  | Msg.disableMouse => [Effect.disableMouseCellMotion, Effect.disableMouseAllMotion]
  | Msg.showCursor => [Effect.showCursor]
  | Msg.hideCursor => [Effect.hideCursor]
  | Msg.exec => [Effect.execProcess]
  | Msg.batch cmds => cmds.map Effect.forwardCmd
  | Msg.sequence cmds => [Effect.spawnSequence cmds]
  | _ => []

/-- Result of processing one message in the event loop body. -/
structure StepResult (M A : Type) where
  model : M
  effects : List (Effect A)
  updates : List (UpdateCall M A)
  quit : Bool

/-- The body of `eventLoop` for one received message (src/tea.go:271-330):
`quitMsg` returns at once with the current model; `batchMsg` forwards its
sub-commands and `continue`s (skipping the renderer hook, the update and the
render); every other message applies its control side effect (if any), passes
through the standard renderer hook, runs `model.Update(msg)`, forwards the
returned command on the `cmds` channel and writes `model.View()` to the
renderer. -/
def processMsg {M A : Type} (u : M → Msg A → M × Cmd A) (v : M → String)
    (model : M) (msg : Msg A) : StepResult M A :=
  match msg with
  | Msg.quit => ⟨model, [], [], true⟩
  | Msg.batch cmds => ⟨model, controlEffects (Msg.batch cmds), [], false⟩
  | m =>
      let mc := u model m
      ⟨mc.1,
       controlEffects m ++
         [Effect.handleMessages m, Effect.forwardCmd mc.2, Effect.write (v mc.1)],
       [⟨model, m, mc.1, mc.2⟩],
       false⟩

/-- An event selected by the loop (src/tea.go:264-271): cancellation of the
program context, an infrastructure error from `p.errs`, or the next message
from `p.msgs`. -/
inductive LoopEvent (A : Type) where
  | ctxDone
  | errRecv (e : Nat)
  | recv (m : Msg A)

/-- Outcome of running `eventLoop` over a finite prefix of the event stream. -/
structure LoopResult (M A : Type) where
  model : M
  effects : List (Effect A)
  updates : List (UpdateCall M A)
  err : Option Nat
  doneByCtx : Bool
  quitDone : Bool

/-- `eventLoop` (src/tea.go:262-332) over a finite event stream: stops at the
first context cancellation (returning the current model and nil error), at the
first infrastructure error (returning the current model and that error), or
when a `quitMsg` is received; otherwise processes each message in receipt
order.  An exhausted stream models a still-running loop. -/
def eventLoop {M A : Type} (u : M → Msg A → M × Cmd A) (v : M → String) :
    M → List (LoopEvent A) → LoopResult M A
  | model, [] => ⟨model, [], [], none, false, false⟩
  | model, LoopEvent.ctxDone :: _ => ⟨model, [], [], none, true, false⟩
  | model, LoopEvent.errRecv e :: _ => ⟨model, [], [], some e, false, false⟩
  | model, LoopEvent.recv m :: rest =>
      let s := processMsg u v model m
      if s.quit then ⟨s.model, s.effects, s.updates, none, false, true⟩
      else
        let r := eventLoop u v s.model rest
        ⟨r.model, s.effects ++ r.effects, s.updates ++ r.updates,
         r.err, r.doneByCtx, r.quitDone⟩

/-- Error classification of `Run` (src/tea.go:30-31, 452-459): forced
termination (`ErrProgramKilled`) is a distinct value from any infrastructure
error surfaced off the error channel. -/
inductive RunError where
  | programKilled
  | infra (e : Nat)

/-- Outcome of `Run` after the event loop returns. -/
structure RunResult (M A : Type) where
  model : M
  err : Option RunError
  effects : List (Effect A)

/-- The tail of `Run` (src/tea.go:452-459): `killed := p.ctx.Err() != nil`;
when killed the error is overridden to `ErrProgramKilled` and no final frame
is written; otherwise the final state of the model is rendered once and the
loop error (if any) is returned. -/
def runFinish {M A : Type} (v : M → String) (killed : Bool)
    (lr : LoopResult M A) : RunResult M A :=
  if killed then ⟨lr.model, some RunError.programKilled, lr.effects⟩
  else ⟨lr.model, lr.err.map RunError.infra,
        lr.effects ++ [Effect.write (v lr.model)]⟩

/-- Spec-side characterization (for the refinement claims about message
processing): threading the transition function through a list of application
messages, collecting the expected update-invocation trace, effect trace and
final model.  Written from the spec sentence "the Model from invocation i
threaded as input to invocation i+1", to be compared with `eventLoop`. -/
def specUpdateThread {M A : Type} (u : M → Msg A → M × Cmd A) (v : M → String) :
    M → List A → List (UpdateCall M A) × List (Effect A) × M
  | model, [] => ([], [], model)
  | model, a :: rest =>
      let mc := u model (Msg.app a)
      let r := specUpdateThread u v mc.1 rest
      (⟨model, Msg.app a, mc.1, mc.2⟩ :: r.1,
       Effect.handleMessages (Msg.app a) :: Effect.forwardCmd mc.2 ::
         Effect.write (v mc.1) :: r.2.1,
       r.2.2)

/-- Spec-side predicate: each update call receives as input the model produced
by the previous one, starting from a given initial model. -/
def chainOk {M A : Type} : M → List (UpdateCall M A) → Prop
  | _, [] => True
  | m, uc :: rest => uc.modelIn = m ∧ chainOk uc.modelOut rest

/-- Outcome of a channel hand-off attempt in the Go semantics. -/
inductive SendResult (A : Type) where
  | delivered (m : Msg A)
  | dropped
  | blocked

/-- `Program.Send` (src/tea.go:504-509): a `select` between `<-p.ctx.Done()`
and `p.msgs <- msg`.  `ctxDone` states whether the context is cancelled,
`recvReady` whether a receiver is waiting on `p.msgs`, and `pickDone` resolves
the pseudo-random choice Go makes when both cases are ready. -/
def send {A : Type} (ctxDone recvReady pickDone : Bool) (msg : Msg A) :
    SendResult A :=
  if ctxDone && recvReady then
    (if pickDone then SendResult.dropped else SendResult.delivered msg)
  else if ctxDone then SendResult.dropped
  else if recvReady then SendResult.delivered msg
  else SendResult.blocked

/-- `Program.Println` / `Program.Printf` (src/tea.go:584-602): an
unconditional `p.msgs <- printLineMessage\x7b...\x7d` with no cancellation
alternative; it completes only when a receiver takes the message. -/
def printlnSend (A : Type) (recvReady : Bool) (body : String) : SendResult A :=
  if recvReady then SendResult.delivered (Msg.printLine body)
  else SendResult.blocked

/-- A fault of a command invocation: in Go, calling a nil function value
panics the calling goroutine. -/
inductive Fault where
  | nilFunctionCall

/-- Invocation of a command (Go `cmd()`): yields its message, or faults when
the command is the nil function. -/
def invokeCmd {A : Type} : Cmd A → Except Fault (Msg A)
  | none => Except.error Fault.nilFunctionCall
  | some m => Except.ok m

/-- The dispatcher body of `handleCommands` for one received command
(src/tea.go:242-252): a nil command is discarded (`if cmd == nil \x7b continue \x7d`);
any other command is invoked and its message sent on. -/
def handleCommand {A : Type} : Cmd A → Except Fault (Option (Msg A))
  | none => Except.ok none
  | some m => (invokeCmd (some m)).map some

/-- The goroutine body spawned for a `sequenceMsg` (src/tea.go:313-318):
`for _, cmd := range msg \x7b p.Send(cmd()) \x7d` — each sub-command is invoked in
list order with no nil check. -/
def runSequence {A : Type} : List (Cmd A) → Except Fault (List (Msg A))
  | [] => Except.ok []
  | c :: cs =>
      match invokeCmd c with
      | Except.error f => Except.error f
      | Except.ok m =>
          match runSequence cs with
          | Except.error f => Except.error f
          | Except.ok ms => Except.ok (m :: ms)

/-- Startup option bits (src/tea.go:73-87), `1 << iota`. -/
def withAltScreen : Nat := 1 <<< 0

/-- Startup option bit (src/tea.go:75). -/
def withMouseCellMotion : Nat := 1 <<< 1

/-- Startup option bit (src/tea.go:76). -/
def withMouseAllMotion : Nat := 1 <<< 2

/-- Startup option bit (src/tea.go:77). -/
def withInputTTY : Nat := 1 <<< 3

/-- Startup option bit (src/tea.go:78). -/
def withCustomInput : Nat := 1 <<< 4

/-- Startup option bit (src/tea.go:79). -/
def withANSICompressor : Nat := 1 <<< 5

/-- Startup option bit (src/tea.go:80). -/
def withoutSignalHandler : Nat := 1 <<< 6

/-- Startup option bit (src/tea.go:86). -/
def withoutCatchPanics : Nat := 1 <<< 7

/-- `startupOptions.has` (src/tea.go:69-71): bitmask test. -/
def hasOpt (s option : Nat) : Bool := s &&& option != 0

/-- The startup-option honoring step of `Run` (src/tea.go:405-413): enter the
alt screen when requested, then enable mouse cell motion, or else — only when
cell motion was not requested — mouse all motion. -/
def startupModeEffects (A : Type) (opts : Nat) : List (Effect A) :=
  (if opts &&& withAltScreen != 0 then [Effect.enterAltScreen] else []) ++
  (if opts &&& withMouseCellMotion != 0 then [Effect.enableMouseCellMotion]
   else if opts &&& withMouseAllMotion != 0 then [Effect.enableMouseAllMotion]
   else [])

/-- Modelled from the spec: the renderer collaborator state behind the §6
renderer contract (alt-screen active query, mouse capture and cursor mode
toggles); the renderer implementation is not under src/. -/
structure RendererState where
  altScreenActive : Bool
  mouseCellMotion : Bool
  mouseAllMotion : Bool
  cursorHidden : Bool
deriving DecidableEq

/-- Modelled from the spec: how each renderer-contract call changes the
renderer mode state; effects that are not mode toggles leave it unchanged. -/
def applyModeEffect {A : Type} (r : RendererState) (e : Effect A) :
    RendererState :=
  match e with
  | Effect.enterAltScreen => { r with altScreenActive := true }
  | Effect.exitAltScreen => { r with altScreenActive := false }
  | Effect.enableMouseCellMotion => { r with mouseCellMotion := true }
  | Effect.enableMouseAllMotion => { r with mouseAllMotion := true }
  | Effect.disableMouseCellMotion => { r with mouseCellMotion := false }
  | Effect.disableMouseAllMotion => { r with mouseAllMotion := false }
  | Effect.showCursor => { r with cursorHidden := false }
  | Effect.hideCursor => { r with cursorHidden := true }
  | _ => r

/-- The program-controller state touched by `ReleaseTerminal` and
`RestoreTerminal` (src/tea.go:114-116): the renderer mode state, the
signals-ignored flag, and the recorded pre-release alt-screen flag. -/
structure ProgState where
  rend : RendererState
  ignoreSignals : Bool
  altScreenWasActive : Bool
deriving DecidableEq

/-- Modelled from the spec: `restoreTerminalState` (called at src/tea.go:554,
body not under src/) — Release "restores the terminal to its pre-program
state": the cursor is shown, mouse capture is disabled, and the alt screen is
left when active. -/
def restoreTerminalState (A : Type) (r : RendererState) :
    RendererState × List (Effect A) :=
  let es : List (Effect A) :=
    [Effect.showCursor, Effect.disableMouseCellMotion,
     Effect.disableMouseAllMotion] ++
    (if r.altScreenActive then [Effect.exitAltScreen] else [])
  (List.foldl applyModeEffect r es, es)

/-- `Program.ReleaseTerminal` (src/tea.go:548-555): sets `ignoreSignals`,
cancels the input reader, records whether the alt screen was active, and
restores the terminal to its pre-program state. -/
def releaseTerminal (A : Type) (p : ProgState) : ProgState × List (Effect A) :=
  let p1 : ProgState :=
    { p with ignoreSignals := true,
             altScreenWasActive := p.rend.altScreenActive }
  let rs := restoreTerminalState A p1.rend
  ({ p1 with rend := rs.1 }, rs.2)

/-- Modelled from the spec: `initTerminal` (called at src/tea.go:563, body not
under src/) — Restore "re-enters managed terminal mode": raw mode is entered
and the cursor hidden; mouse and alt-screen modes are not touched. -/
def initTerminal (A : Type) (r : RendererState) :
    RendererState × List (Effect A) :=
  ({ r with cursorHidden := true }, [Effect.hideCursor])

/-- `Program.RestoreTerminal` (src/tea.go:560-578): clears `ignoreSignals`,
re-enters managed terminal mode, re-subscribes input, then re-enters the alt
screen if it was active at release, or else sends a repaint request. -/
def restoreTerminal (A : Type) (p : ProgState) : ProgState × List (Effect A) :=
  let p1 : ProgState := { p with ignoreSignals := false }
  let ir := initTerminal A p1.rend
  if p1.altScreenWasActive then
    ({ p1 with rend := applyModeEffect ir.1 (Effect.enterAltScreen : Effect A) },
     ir.2 ++ [Effect.enterAltScreen])
  else
    ({ p1 with rend := ir.1 }, ir.2 ++ [Effect.sendRepaint])

/-- A concrete counting transition function used for closed witnesses: every
message increments the model and yields no command. -/
def countUpd (model : Nat) (_m : Msg Nat) : Nat × Cmd Nat := (model + 1, none)

/-- A concrete render function used for closed witnesses. -/
def natView (model : Nat) : String := toString model

/-- A concrete pre-release program state with mouse cell motion enabled,
the cursor hidden and the alt screen off. -/
def mouseOnState : ProgState :=
  ⟨⟨false, true, false, true⟩, false, false⟩

/-- Processing an application message: no control side effect, one update
invocation, command forwarded, view written. -/
lemma processMsg_app {M A : Type} (u : M → Msg A → M × Cmd A) (v : M → String)
    (model : M) (a : A) :
    processMsg u v model (Msg.app a) =
      ⟨(u model (Msg.app a)).1,
       [Effect.handleMessages (Msg.app a),
        Effect.forwardCmd (u model (Msg.app a)).2,
        Effect.write (v (u model (Msg.app a)).1)],
       [⟨model, Msg.app a, (u model (Msg.app a)).1, (u model (Msg.app a)).2⟩],
       false⟩ := rfl

/-- `eventLoop` on a stream of application messages agrees with the spec-side
threaded recursion. -/
lemma eventLoop_app_stream {M A : Type} (u : M → Msg A → M × Cmd A)
    (v : M → String) (model : M) (msgs : List A) :
    eventLoop u v model (msgs.map fun a => LoopEvent.recv (Msg.app a)) =
      ⟨(specUpdateThread u v model msgs).2.2,
       (specUpdateThread u v model msgs).2.1,
       (specUpdateThread u v model msgs).1,
       none, false, false⟩ := by
  induction msgs generalizing model with
  | nil => simp [eventLoop, specUpdateThread]
  | cons a rest ih =>
      simp [eventLoop, specUpdateThread, processMsg_app, ih]

/-- The spec-side recursion performs one update per message. -/
lemma specUpdateThread_length {M A : Type} (u : M → Msg A → M × Cmd A)
    (v : M → String) (model : M) (msgs : List A) :
    (specUpdateThread u v model msgs).1.length = msgs.length := by
  induction msgs generalizing model with
  | nil => simp [specUpdateThread]
  | cons a rest ih => simp [specUpdateThread, ih]

/-- The spec-side recursion processes the messages in send order. -/
lemma specUpdateThread_msgs {M A : Type} (u : M → Msg A → M × Cmd A)
    (v : M → String) (model : M) (msgs : List A) :
    (specUpdateThread u v model msgs).1.map UpdateCall.msg =
      msgs.map Msg.app := by
  induction msgs generalizing model with
  | nil => simp [specUpdateThread]
  | cons a rest ih => simp [specUpdateThread, ih]

/-- The spec-side recursion threads each output model into the next call. -/
lemma specUpdateThread_chain {M A : Type} (u : M → Msg A → M × Cmd A)
    (v : M → String) (model : M) (msgs : List A) :
    chainOk model (specUpdateThread u v model msgs).1 := by
  induction msgs generalizing model with
  | nil => simp [specUpdateThread, chainOk]
  | cons a rest ih => simp [specUpdateThread, chainOk, ih]

/-- C1: for every sequence of N application (non-control) messages delivered
while the loop is running, `Update` is invoked exactly N times, in send order,
with the model of invocation i threaded into invocation i+1, and after each
invocation the view of the new model is written to the renderer (the loop's
trace coincides with the spec-side threaded recursion `specUpdateThread`). -/
theorem eventLoop_update_threading {M A : Type} (u : M → Msg A → M × Cmd A)
    (v : M → String) (model : M) (msgs : List A) :
    eventLoop u v model (msgs.map fun a => LoopEvent.recv (Msg.app a)) =
      ⟨(specUpdateThread u v model msgs).2.2,
       (specUpdateThread u v model msgs).2.1,
       (specUpdateThread u v model msgs).1,
       none, false, false⟩ ∧
    (specUpdateThread u v model msgs).1.length = msgs.length ∧
    (specUpdateThread u v model msgs).1.map UpdateCall.msg = msgs.map Msg.app ∧
    chainOk model (specUpdateThread u v model msgs).1 :=
  ⟨eventLoop_app_stream u v model msgs,
   specUpdateThread_length u v model msgs,
   specUpdateThread_msgs u v model msgs,
   specUpdateThread_chain u v model msgs⟩

/-- A quit message after a stream of application messages ends the loop at
once: the events after it are never read, the quit message itself is not
passed to the transition function, and no effect is emitted for it. -/
lemma eventLoop_app_quit {M A : Type} (u : M → Msg A → M × Cmd A)
    (v : M → String) (model : M) (msgs : List A) (post : List (LoopEvent A)) :
    eventLoop u v model
        ((msgs.map fun a => LoopEvent.recv (Msg.app a)) ++
          LoopEvent.recv Msg.quit :: post) =
      ⟨(specUpdateThread u v model msgs).2.2,
       (specUpdateThread u v model msgs).2.1,
       (specUpdateThread u v model msgs).1,
       none, false, true⟩ := by
  induction msgs generalizing model with
  | nil => simp [eventLoop, processMsg, specUpdateThread]
  | cons a rest ih =>
      simp [eventLoop, specUpdateThread, processMsg_app, ih]

/-- C2: on receiving the quit control message the event loop terminates
immediately — later events are ignored, the transition function is not invoked
on the quit message, the updates are exactly those of the preceding
application messages — and for a graceful (non-killed) exit `Run` appends
exactly one final render of the last model and returns it with no error. -/
theorem quit_terminates_and_final_render {M A : Type}
    (u : M → Msg A → M × Cmd A) (v : M → String) (model : M) (msgs : List A)
    (post : List (LoopEvent A)) :
    eventLoop u v model
        ((msgs.map fun a => LoopEvent.recv (Msg.app a)) ++
          LoopEvent.recv Msg.quit :: post) =
      ⟨(specUpdateThread u v model msgs).2.2,
       (specUpdateThread u v model msgs).2.1,
       (specUpdateThread u v model msgs).1,
       none, false, true⟩ ∧
    runFinish v false
        (eventLoop u v model
          ((msgs.map fun a => LoopEvent.recv (Msg.app a)) ++
            LoopEvent.recv Msg.quit :: post)) =
      ⟨(specUpdateThread u v model msgs).2.2,
       none,
       (specUpdateThread u v model msgs).2.1 ++
         [Effect.write (v (specUpdateThread u v model msgs).2.2)]⟩ := by
  refine ⟨eventLoop_app_quit u v model msgs post, ?_⟩
  rw [eventLoop_app_quit u v model msgs post]
  simp [runFinish]

/-- Once the loop selects the cancelled context it stops: everything after the
cancellation event is ignored. -/
lemma eventLoop_ctxDone_stops {M A : Type} (u : M → Msg A → M × Cmd A)
    (v : M → String) (model : M) (pre post : List (LoopEvent A)) :
    eventLoop u v model (pre ++ LoopEvent.ctxDone :: post) =
      eventLoop u v model (pre ++ [LoopEvent.ctxDone]) := by
  induction pre generalizing model with
  | nil => simp [eventLoop]
  | cons ev rest ih =>
      cases ev with
      | ctxDone => simp [eventLoop]
      | errRecv e => simp [eventLoop]
      | recv m =>
          simp only [List.cons_append, eventLoop]
          split
          · rfl
          · simp [ih]

/-- C3: when the kill request is observed (`killed = true` at src/tea.go:453),
`Run` reports the distinct forced-termination error `ErrProgramKilled` — never
an infrastructure error — and appends no final render to the loop's effect
trace; the loop itself stops at the cancellation event, emitting nothing for
it and ignoring all later events. -/
theorem kill_reports_programKilled_skips_render {M A : Type}
    (u : M → Msg A → M × Cmd A) (v : M → String) (model : M)
    (pre post : List (LoopEvent A)) :
    (runFinish v true
        (eventLoop u v model (pre ++ LoopEvent.ctxDone :: post))).err =
      some RunError.programKilled ∧
    (∀ e : Nat, RunError.programKilled ≠ RunError.infra e) ∧
    (runFinish v true
        (eventLoop u v model (pre ++ LoopEvent.ctxDone :: post))).effects =
      (eventLoop u v model (pre ++ LoopEvent.ctxDone :: post)).effects ∧
    eventLoop u v model (pre ++ LoopEvent.ctxDone :: post) =
      eventLoop u v model (pre ++ [LoopEvent.ctxDone]) ∧
    eventLoop u v model [LoopEvent.ctxDone] =
      ⟨model, [], [], none, true, false⟩ := by
  refine ⟨?_, ?_, ?_, eventLoop_ctxDone_stops u v model pre post, rfl⟩
  · simp [runFinish]
  · intro e h
    cases h
  · simp [runFinish]

/-- C4: after the program has terminated (its context is done), `Send` is a
silent no-op for every message value: it never blocks (whatever the receiver
side or Go's select choice looks like), and with no receiver left it simply
drops the message. -/
theorem send_after_termination_noop {A : Type} (msg : Msg A)
    (recvReady pickDone : Bool) :
    send true recvReady pickDone msg ≠ SendResult.blocked ∧
    send true false pickDone msg = SendResult.dropped := by
  constructor
  · cases recvReady <;> cases pickDone <;> simp [send]
  · cases pickDone <;> simp [send]

/-- C9: `Println`/`Printf` hand their print-line message over by an
unconditional channel send: after termination (no receiver on the bus) the
call blocks and never returns, unlike `Send`, which drops the message in the
same situation — so the after-termination no-op guarantee does not extend to
them. -/
theorem println_blocks_after_termination (A : Type) (body : String)
    (pickDone : Bool) :
    printlnSend A false body = SendResult.blocked ∧
    send true false pickDone (Msg.printLine body : Msg A) =
      SendResult.dropped ∧
    (SendResult.blocked : SendResult A) ≠ SendResult.dropped := by
  refine ⟨rfl, ?_, ?_⟩
  · cases pickDone <;> simp [send]
  · intro h
    cases h

/-- C5: evaluation at the failing input. The command dispatcher discards a nil
command, but the sequence goroutine body invokes its sub-commands with no nil
check: a sequence containing a nil command faults (a nil function call), so a
nil command is not a discarded no-op on the sequence path. -/
theorem sequence_invokes_nil_command :
    handleCommand (A := Nat) none = Except.ok none ∧
    runSequence (A := Nat) [none] = Except.error Fault.nilFunctionCall ∧
    runSequence (A := Nat) [some (Msg.app 1), none, some (Msg.app 2)] =
      Except.error Fault.nilFunctionCall := by
  exact ⟨rfl, rfl, rfl⟩

/-- C10: processing one disable-mouse control message emits both the
disable-cell-motion and the disable-all-motion renderer effects (in that
order, before the renderer hook, the command forward and the render), for
every transition function, render function and current model — the loop never
consults which mouse mode is enabled. -/
theorem disableMouse_disables_both {M A : Type} (u : M → Msg A → M × Cmd A)
    (v : M → String) (model : M) :
    (processMsg u v model Msg.disableMouse).effects =
      [Effect.disableMouseCellMotion, Effect.disableMouseAllMotion,
       Effect.handleMessages Msg.disableMouse,
       Effect.forwardCmd (u model Msg.disableMouse).2,
       Effect.write (v (u model Msg.disableMouse).1)] ∧
    Effect.disableMouseCellMotion ∈
      (processMsg u v model Msg.disableMouse).effects ∧
    Effect.disableMouseAllMotion ∈
      (processMsg u v model Msg.disableMouse).effects := by
  refine ⟨rfl, ?_, ?_⟩ <;> simp [processMsg, controlEffects]

/-- C6 counterexample: a batch message is a control message other than quit,
yet the event loop `continue`s on it — the transition function is not invoked
(no update call is recorded and the model is unchanged), refuting the claim
that every control kind except quit is forwarded to the application. -/
theorem batch_not_forwarded_to_update :
    (processMsg countUpd natView 0
        (Msg.batch ([] : List (Option (Msg Nat))))).updates = [] ∧
    (processMsg countUpd natView 0
        (Msg.batch ([] : List (Option (Msg Nat))))).model = 0 ∧
    Msg.batch ([] : List (Option (Msg Nat))) ≠ Msg.quit := by
  refine ⟨rfl, rfl, ?_⟩
  intro h
  cases h

/-- C6 amended: for every message other than quit and batch — in particular
every other control kind — the event loop first applies the control side
effect and then still forwards that same message to the transition function,
recording exactly one update call, followed by the command forward and the
render of the new model. -/
theorem control_forwarded_except_quit_batch {M A : Type}
    (u : M → Msg A → M × Cmd A) (v : M → String) (model : M) (msg : Msg A)
    (hq : msg ≠ Msg.quit)
    (hb : ∀ cmds : List (Option (Msg A)), msg ≠ Msg.batch cmds) :
    (processMsg u v model msg).updates =
      [⟨model, msg, (u model msg).1, (u model msg).2⟩] ∧
    (processMsg u v model msg).effects =
      controlEffects msg ++
        [Effect.handleMessages msg, Effect.forwardCmd (u model msg).2,
         Effect.write (v (u model msg).1)] := by
  cases msg with
  | quit => exact absurd rfl hq
  | batch cmds => exact absurd rfl (hb cmds)
  | clearScreen => exact ⟨rfl, rfl⟩
  | enterAltScreen => exact ⟨rfl, rfl⟩
  | exitAltScreen => exact ⟨rfl, rfl⟩
  | enableMouseCellMotion => exact ⟨rfl, rfl⟩
  | enableMouseAllMotion => exact ⟨rfl, rfl⟩
  | disableMouse => exact ⟨rfl, rfl⟩
  | showCursor => exact ⟨rfl, rfl⟩
  | hideCursor => exact ⟨rfl, rfl⟩
  | exec => exact ⟨rfl, rfl⟩
  | sequence cmds => exact ⟨rfl, rfl⟩
  | printLine body => exact ⟨rfl, rfl⟩
  | repaint => exact ⟨rfl, rfl⟩
  | app a => exact ⟨rfl, rfl⟩

/-- C6 witness: the amended statement instantiated at the clear-screen control
message with the concrete counting application. -/
theorem control_forwarded_witness :
    (processMsg countUpd natView 0 Msg.clearScreen).updates =
      [⟨0, Msg.clearScreen, 1, none⟩] ∧
    (processMsg countUpd natView 0 Msg.clearScreen).effects =
      controlEffects Msg.clearScreen ++
        [Effect.handleMessages Msg.clearScreen, Effect.forwardCmd none,
         Effect.write (natView 1)] :=
  control_forwarded_except_quit_batch countUpd natView 0 Msg.clearScreen
    (by intro h; cases h) (by intro cmds h; cases h)

/-- C7 counterexample: from a state with mouse cell motion enabled,
`ReleaseTerminal` followed by `RestoreTerminal` leaves mouse cell motion
disabled — the mouse mode is not restored to its pre-release state. -/
theorem release_restore_loses_mouse :
    mouseOnState.rend.mouseCellMotion = true ∧
    ((restoreTerminal Nat
        (releaseTerminal Nat mouseOnState).1).1).rend.mouseCellMotion =
      false := by
  exact ⟨rfl, rfl⟩

/-- C7 amended: `ReleaseTerminal` followed by `RestoreTerminal` restores the
alt-screen mode to exactly its pre-release state, and on restore either
alt-screen re-entry or an explicit forced repaint is observed, never neither;
the mouse modes, however, are left disabled rather than restored. -/
theorem release_restore_altscreen_roundtrip (p : ProgState) :
    ((restoreTerminal Nat (releaseTerminal Nat p).1).1).rend.altScreenActive =
      p.rend.altScreenActive ∧
    ((restoreTerminal Nat (releaseTerminal Nat p).1).1).rend.mouseCellMotion =
      false ∧
    ((restoreTerminal Nat (releaseTerminal Nat p).1).1).rend.mouseAllMotion =
      false ∧
    (Effect.enterAltScreen ∈ (restoreTerminal Nat (releaseTerminal Nat p).1).2 ∨
      Effect.sendRepaint ∈ (restoreTerminal Nat (releaseTerminal Nat p).1).2) := by
  obtain ⟨⟨alt, mc, ma, ch⟩, ig, aw⟩ := p
  cases alt <;>
    simp [releaseTerminal, restoreTerminalState, restoreTerminal,
      initTerminal, applyModeEffect]

/-- C8: when both mouse startup options are requested, only cell motion is
activated: the startup step emits the enable-cell-motion effect and never the
enable-all-motion effect. -/
theorem mouse_cell_priority (opts : Nat)
    (hc : hasOpt opts withMouseCellMotion = true)
    (_ha : hasOpt opts withMouseAllMotion = true) :
    Effect.enableMouseCellMotion ∈ startupModeEffects Nat opts ∧
    Effect.enableMouseAllMotion ∉ startupModeEffects Nat opts := by
  have hc' : (opts &&& withMouseCellMotion != 0) = true := hc
  constructor
  · by_cases h : opts &&& withAltScreen = 0 <;>
      simp [startupModeEffects, hc', h]
  · by_cases h : opts &&& withAltScreen = 0 <;>
      simp [startupModeEffects, hc', h]

/-- C8 witness: options requesting both mouse modes (bits 2 and 4) yield only
the cell-motion activation. -/
theorem mouse_cell_priority_witness :
    Effect.enableMouseCellMotion ∈ startupModeEffects Nat 6 ∧
    Effect.enableMouseAllMotion ∉ startupModeEffects Nat 6 :=
  mouse_cell_priority 6 (by decide) (by decide)

end Tea
